import Mathlib

/-!
Shallow embedding of the subscription / discount / onboarding / parsing core of
the Ba-man-Befrush bot (files `app/models/schema.py`, `app/services/user_service.py`,
`app/services/ai_service.py`, `app/handlers/common.py`).

Conventions of the embedding:
* `datetime` values are modelled as `Int` seconds; `timedelta(days = d)` is `d * 86400`.
* Python strings are modelled as `List Char` where structural reasoning is needed
  (the reply parser, the phone validator) and as `String` where only equality is
  used (codes, payment references).  Python `str.strip()` strips ASCII whitespace
  here; the repository only ever feeds it text whose surrounding whitespace is ASCII.
* The database session is modelled as explicit lists of rows; SQLAlchemy's
  "mutate the selected row" is modelled by rewriting the first matching list entry.
* Nondeterministic inputs (the wall clock, the random referral code, the
  autoincrement id, the external AI reply) are explicit parameters.
-/

/-- `schema.py` `SubscriptionStatus` enum. -/
inductive SubscriptionStatus where
  | trial
  | active
  | expired
deriving DecidableEq, Repr

/-- `schema.py` `Subscription` row: the columns the service layer reads or writes. -/
structure Subscription where
  user_id : Int
  status : SubscriptionStatus
  expires_at : Int
  payment_amount : Int
  payment_reference : Option String
  updated_at : Option Int
deriving DecidableEq, Repr

/-- `Subscription.create_trial(user_id, trial_days)`:
`expires_at = datetime.now(utc) + timedelta(days=trial_days)`, status TRIAL. -/
def Subscription.create_trial (user_id : Int) (trial_days : Int) (now : Int) : Subscription :=
  { user_id := user_id
    status := SubscriptionStatus.trial
    expires_at := now + trial_days * 86400
    payment_amount := 0
    payment_reference := none
    updated_at := none }

/-- `Subscription.is_active` property:
`expires_at > now and status in [TRIAL, ACTIVE]`. -/
def Subscription.is_active (s : Subscription) (now : Int) : Bool :=
  decide (s.expires_at > now) &&
    (s.status == SubscriptionStatus.trial || s.status == SubscriptionStatus.active)

/-- `user_service.py` `extend_subscription`: the subscription found for the user is
passed as an `Option` (`get_user_subscription` may find none, in which case the
service returns `False` and changes nothing).  Otherwise
`extend_from = max(expires_at, now)`, `new_expiry = extend_from + timedelta(days=30*months)`,
status ACTIVE, payment fields recorded, `updated_at = now`. -/
def extend_subscription (sub : Option Subscription) (now : Int)
    (payment_amount : Int) (payment_reference : String) (months : Int) :
    Option Subscription × Bool :=
  match sub with
  | none => (none, false)
  | some s =>
    let extend_from := max s.expires_at now
    let new_expiry := extend_from + 30 * months * 86400
    (some { s with
        expires_at := new_expiry
        status := SubscriptionStatus.active
        payment_amount := payment_amount
        payment_reference := some payment_reference
        updated_at := some now }, true)

/-- `schema.py` `DiscountCode` row (the float `discount_percentage` column is not
read by any modelled operation and is omitted). -/
structure DiscountCode where
  code : String
  max_uses : Int
  current_uses : Int
  expires_at : Option Int
  is_active : Bool
deriving DecidableEq, Repr

/-- `DiscountCode.is_valid` property, with its three early returns:
inactive → False; `current_uses >= max_uses` → False;
`expires_at` set and `< now` → False; else True. -/
def DiscountCode.is_valid (d : DiscountCode) (now : Int) : Bool :=
  if !d.is_active then false
  else if decide (d.current_uses ≥ d.max_uses) then false
  else
    match d.expires_at with
    | some e => if decide (e < now) then false else true
    | none => true

/-- Rewrites the first list entry satisfying `p` through `f`; models SQLAlchemy
mutating the single row returned by a `select`. -/
def bumpFirst (p : α → Bool) (f : α → α) : List α → List α
  | [] => []
  | x :: xs => if p x then f x :: xs else x :: bumpFirst p f xs

/-- `user_service.py` `apply_discount_code`: select the row whose unique `code`
column equals `code`; if absent or `not is_valid`, return `None` and leave the
table unchanged; else increment `current_uses` on that row and return it. -/
def apply_discount_code (store : List DiscountCode) (code : String) (now : Int) :
    Option DiscountCode × List DiscountCode :=
  match store.find? (fun d => d.code == code) with
  | none => (none, store)
  | some d =>
    if d.is_valid now then
      (some { d with current_uses := d.current_uses + 1 },
       bumpFirst (fun x => x.code == code)
         (fun x => { x with current_uses := x.current_uses + 1 }) store)
    else (none, store)

/-- Folding a sequence of `apply_discount_code` calls (each with its own code and
clock reading) over the discount table. -/
def runApplies (store : List DiscountCode) (reqs : List (String × Int)) : List DiscountCode :=
  reqs.foldl (fun st r => (apply_discount_code st r.1 r.2).2) store

/-- `schema.py` `User` row: the columns `get_or_create_user` and the referral
logic read or write.  `referral_count` is `Option Int` because the column is
`NULL` on an unflushed object and the code guards with `or 0`. -/
structure User where
  id : Int
  telegram_id : Int
  username : Option String
  first_name : Option String
  last_name : Option String
  display_name : Option String
  onboarding_completed : Bool
  referral_code : Option String
  referred_by_code : Option String
  referral_count : Option Int
  last_activity : Int
deriving DecidableEq, Repr

/-- `User.generate_referral_code`: `if not self.referral_code` (falsy: `None` or
the empty string) assign a fresh random 8-char code, here an explicit parameter. -/
def User.generate_referral_code (u : User) (fresh : String) : User :=
  match u.referral_code with
  | none => { u with referral_code := some fresh }
  | some c => if c = "" then { u with referral_code := some fresh } else u

/-- `schema.py` `UserProfile` row: only its existence and owner matter to the
modelled operations (`get_or_create_user` creates it with every other column at
its default). -/
structure UserProfile where
  user_id : Int
deriving DecidableEq, Repr

/-- The tables `get_or_create_user` touches. -/
structure DB where
  users : List User
  profiles : List UserProfile
  subscriptions : List Subscription
deriving DecidableEq, Repr

/-- `user_service.py` `get_or_create_user`.  Explicit parameters for the clock
(`now`), the random referral code a new user would get (`fresh`), the
autoincrement id a new row would get (`uid`) and `settings.TRIAL_DAYS`
(`trial_days`).  If a user with this `telegram_id` exists: update
`last_activity` and return it.  Otherwise: insert the new user (with its
generated referral code), a `UserProfile`, a trial `Subscription`, and — when
`referred_by_code` is truthy — select the first user whose `referral_code`
equals it (the new row is already flushed, hence visible) and increment that
user's `referral_count` (`(referral_count or 0) + 1`); an absent match is
ignored.  The returned user is the refreshed row with id `uid`. -/
def get_or_create_user (db : DB) (now : Int) (fresh : String) (uid : Int)
    (trial_days : Int) (telegram_id : Int)
    (username first_name last_name referred_by_code : Option String) : User × DB :=
  match db.users.find? (fun x => x.telegram_id == telegram_id) with
  | some u =>
    ({ u with last_activity := now },
     { db with users := (bumpFirst (fun x => x.telegram_id == telegram_id)
         (fun x => { x with last_activity := now }) db.users) })
  | none =>
    let u : User :=
      User.generate_referral_code
        { id := uid, telegram_id := telegram_id, username := username,
          first_name := first_name, last_name := last_name, display_name := none,
          onboarding_completed := false, referral_code := none,
          referred_by_code := referred_by_code, referral_count := none,
          last_activity := now } fresh
    let usersAll := db.users ++ [u]
    let users2 :=
      match u.referred_by_code with
      | some c =>
        if c = "" then usersAll
        else
          bumpFirst (fun x => x.referral_code == some c)
            (fun x => { x with referral_count := some (x.referral_count.getD 0 + 1) })
            usersAll
      | none => usersAll
    ((users2.find? (fun x => x.id == uid)).getD u,
     { users := users2
       profiles := db.profiles ++ [{ user_id := uid }]
       subscriptions := db.subscriptions ++ [Subscription.create_trial uid trial_days now] })

/-- The aiogram FSM states of `handlers/common.py` that the back-navigation of
the onboarding funnel can visit: `mainMenu` is the cleared state
(`state.clear()`, the main menu), the rest are
`OnboardingStates.waiting_for_ready` … `waiting_for_additional_info`. -/
inductive BotState where
  | mainMenu
  | ready
  | name
  | phone
  | email
  | galleryName
  | instagram
  | telegramChannel
  | customers
  | constraints
  | help
  | physicalStore
  | additionalInfo
deriving DecidableEq, Repr

/-- Effect of one back token "🔙 بازگشت" in each state, read off the handlers of
`handlers/common.py`: each `waiting_for_*` message handler from name through
additional_info routes the back token to its `back_to_*` helper, which
`state.set_state`s the preceding state.  In `waiting_for_ready` no onboarding
handler matches (the only one filters on the text "آماده‌ام"), so the token
falls through to the catch-all `@router.message(F.text == "🔙 بازگشت")`
handler `back_to_main_menu`, which clears the state; the same catch-all fires
when no FSM state is set, leaving the controller at the main menu. -/
def backStep : BotState → BotState
  | BotState.mainMenu => BotState.mainMenu
  | BotState.ready => BotState.mainMenu
  | BotState.name => BotState.ready
  | BotState.phone => BotState.name
  | BotState.email => BotState.phone
  | BotState.galleryName => BotState.email
  | BotState.instagram => BotState.galleryName
  | BotState.telegramChannel => BotState.instagram
  | BotState.customers => BotState.telegramChannel
  | BotState.constraints => BotState.customers
  | BotState.help => BotState.constraints
  | BotState.physicalStore => BotState.help
  | BotState.additionalInfo => BotState.physicalStore

/-- `pat` is an initial segment of `l`. -/
def beginsWith : List Char → List Char → Bool
  | [], _ => true
  | _ :: _, [] => false
  | p :: ps, c :: cs => p == c && beginsWith ps cs

/-- The codepoint ranges of the Unicode general category Nd (decimal digits),
which is exactly the set Python's `re` pattern `\d` matches on `str` input
(ASCII `0-9`, Arabic-Indic `٠-٩`, Extended Arabic-Indic / Persian `۰-۹`,
Devanagari, …). -/
def ndRanges : List (UInt32 × UInt32) :=
  [(0x30, 0x39), (0x660, 0x669), (0x6F0, 0x6F9), (0x7C0, 0x7C9),
    (0x966, 0x96F), (0x9E6, 0x9EF), (0xA66, 0xA6F), (0xAE6, 0xAEF),
    (0xB66, 0xB6F), (0xBE6, 0xBEF), (0xC66, 0xC6F), (0xCE6, 0xCEF),
    (0xD66, 0xD6F), (0xDE6, 0xDEF), (0xE50, 0xE59), (0xED0, 0xED9),
    (0xF20, 0xF29), (0x1040, 0x1049), (0x1090, 0x1099), (0x17E0, 0x17E9),
    (0x1810, 0x1819), (0x1946, 0x194F), (0x19D0, 0x19D9), (0x1A80, 0x1A89),
    (0x1A90, 0x1A99), (0x1B50, 0x1B59), (0x1BB0, 0x1BB9), (0x1C40, 0x1C49),
    (0x1C50, 0x1C59), (0xA620, 0xA629), (0xA8D0, 0xA8D9), (0xA900, 0xA909),
    (0xA9D0, 0xA9D9), (0xA9F0, 0xA9F9), (0xAA50, 0xAA59), (0xABF0, 0xABF9),
    (0xFF10, 0xFF19), (0x104A0, 0x104A9), (0x10D30, 0x10D39), (0x11066, 0x1106F),
    (0x110F0, 0x110F9), (0x11136, 0x1113F), (0x111D0, 0x111D9), (0x112F0, 0x112F9),
    (0x11450, 0x11459), (0x114D0, 0x114D9), (0x11650, 0x11659), (0x116C0, 0x116C9),
    (0x11730, 0x11739), (0x118E0, 0x118E9), (0x11950, 0x11959), (0x11C50, 0x11C59),
    (0x11D50, 0x11D59), (0x11DA0, 0x11DA9), (0x16A60, 0x16A69), (0x16AC0, 0x16AC9),
    (0x16B50, 0x16B59), (0x1D7CE, 0x1D7FF), (0x1E140, 0x1E149), (0x1E2F0, 0x1E2F9),
    (0x1E950, 0x1E959), (0x1FBF0, 0x1FBF9)]

/-- Python `\d` on a `str` pattern: any Unicode decimal digit (category Nd). -/
def isPyDigit (c : Char) : Bool :=
  ndRanges.any (fun r => r.1 ≤ c.val && c.val ≤ r.2)

/-- `d` consecutive characters satisfying Python `\d`, then the end of the
string — where, as with Python's `re.match` anchor `$`, a single trailing
newline is also accepted. -/
def digitsThenEnd : Nat → List Char → Bool
  | 0, [] => true
  | 0, ['\n'] => true
  | 0, _ => false
  | _ + 1, [] => false
  | d + 1, c :: rest => isPyDigit c && digitsThenEnd d rest

/-- The mandatory part `9\d{9}$` shared by all alternatives of the phone regex. -/
def phoneCore : List Char → Bool
  | '9' :: rest => digitsThenEnd 9 rest
  | _ => false

/-- `handlers/common.py` `handle_phone_input` validation:
`re.match(r'^(\+98|0)?9\d{9}$', text)` — an optional `+98` or `0`, then `9`,
then nine digits, to the end. -/
def phoneMatch (s : List Char) : Bool :=
  (match s with
   | '+' :: '9' :: '8' :: rest => phoneCore rest
   | _ => false) ||
  (match s with
   | '0' :: rest => phoneCore rest
   | _ => false) ||
  phoneCore s

/-- `d` consecutive Python-`\d` digits then the exact end of the string (the
abstract reading of `\d{9}$` used when rendering the spec's own regex, below). -/
def digitsExact : Nat → List Char → Bool
  | 0, [] => true
  | 0, _ :: _ => false
  | _ + 1, [] => false
  | d + 1, c :: rest => isPyDigit c && digitsExact d rest

/-- `9` then nine digits then the end, for the spec-side pattern. -/
def specCore : List Char → Bool
  | '9' :: rest => digitsExact 9 rest
  | _ => false

/-- Modelled from the spec, for comparison only: the phone pattern the spec
states, `^(\+?0?9)\d{9}$` — an optional `+`, an optional `0`, then `9`, then
nine digits, to the end. -/
def specPhoneMatch (s : List Char) : Bool :=
  (match s with
   | '+' :: '0' :: rest => specCore rest
   | _ => false) ||
  (match s with
   | '+' :: rest => specCore rest
   | _ => false) ||
  (match s with
   | '0' :: rest => specCore rest
   | _ => false) ||
  specCore s

/-- The skip token "رد کردن". -/
def skipTok : List Char := "رد کردن".toList

/-- The back token "🔙 بازگشت". -/
def backTok : List Char := "🔙 بازگشت".toList

/-- Outcome of one message in the phone-collection state. -/
inductive PhoneOutcome where
  /-- skip token: nothing stored, advance to the email state. -/
  | skipToEmail
  /-- back token: `back_to_name` runs, state returns to the name state. -/
  | backToName
  /-- validation failed: the error prompt is re-sent, the state is unchanged. -/
  | reprompt
  /-- validation passed: this exact text is stored as the phone, advance to email. -/
  | acceptToEmail (phone : List Char)
deriving DecidableEq, Repr

/-- `handlers/common.py` `handle_phone_input`, branch for branch: skip check,
then back check, then the regex; on match `update_user_phone(user.id, text)`
and advance to `waiting_for_email`, on mismatch answer the re-prompt and
return (state untouched). -/
def handle_phone_input (text : List Char) : PhoneOutcome :=
  if text = skipTok then PhoneOutcome.skipToEmail
  else if text = backTok then PhoneOutcome.backToName
  else if phoneMatch text then PhoneOutcome.acceptToEmail text
  else PhoneOutcome.reprompt

/-- Python `str.strip()` default whitespace set, restricted to ASCII
(space, tab, newline, carriage return, vertical tab, form feed). -/
def isPySpace (c : Char) : Bool :=
  c == ' ' || c == '\t' || c == '\n' || c == '\r' || c == '\x0b' || c == '\x0c'

/-- Python `str.strip()`: drop leading and trailing whitespace. -/
def trimChars (l : List Char) : List Char :=
  ((l.dropWhile isPySpace).reverse.dropWhile isPySpace).reverse

/-- Python `s.split('\n')`. -/
def splitNl : List Char → List (List Char)
  | [] => [[]]
  | c :: rest =>
    if c = '\n' then [] :: splitNl rest
    else
      match splitNl rest with
      | [] => [[c]]
      | h :: t => (c :: h) :: t

/-- Python `s.split('\n\n')`: left-to-right, non-overlapping. -/
def splitBlank : List Char → List (List Char)
  | [] => [[]]
  | [c] => [[c]]
  | c :: d :: rest =>
    if c = '\n' ∧ d = '\n' then [] :: splitBlank rest
    else
      match splitBlank (d :: rest) with
      | [] => [[c]]
      | h :: t => (c :: h) :: t

/-- Whether two consecutive newlines occur anywhere (so `split('\n\n')` would cut). -/
def hasDouble : List Char → Bool
  | [] => false
  | [_] => false
  | c :: d :: rest => (c == '\n' && d == '\n') || hasDouble (d :: rest)

/-- The tuple of `str.startswith` in `_parse_numbered_content`:
`('1.', '2.', '3.', '۱.', '۲.', '۳.')`. -/
def numberLabels : List (List Char) :=
  ["1.".toList, "2.".toList, "3.".toList, "۱.".toList, "۲.".toList, "۳.".toList]

/-- A (stripped) line opens a numbered item. -/
def isLabel (line : List Char) : Bool :=
  numberLabels.any (fun p => beginsWith p line)

/-- The accumulation loop of `_parse_numbered_content`: per line, strip it; a
label line flushes the current item (stripped, if non-empty — Python string
truthiness) and restarts from the label line; other lines are appended with a
`\n` when an item is open and dropped otherwise. -/
def parseAccum : List (List Char) → List (List Char) → List Char →
    List (List Char) × List Char
  | [], parsed, current => (parsed, current)
  | l :: ls, parsed, current =>
    let line := trimChars l
    if isLabel line then
      parseAccum ls (if current ≠ [] then parsed ++ [trimChars current] else parsed) line
    else if current ≠ [] then
      parseAccum ls parsed (current ++ '\n' :: line)
    else
      parseAccum ls parsed current

/-- `ai_service.py` `_parse_numbered_content(content, expected_count)`:
accumulate numbered items over `content.strip().split('\n')`; if fewer than
`expected_count` were found, fall back to the stripped non-empty chunks of
`content.split('\n\n')`; return the first `expected_count` items, or, if none
at all, the raw `content` as single element. -/
def parse_numbered_content (content : List Char) (expected_count : Nat) :
    List (List Char) :=
  let st := parseAccum (splitNl (trimChars content)) [] []
  let parsed := if st.2 ≠ [] then st.1 ++ [trimChars st.2] else st.1
  let parsed2 :=
    if parsed.length < expected_count then
      ((splitBlank content).map trimChars).filter (fun c => c ≠ [])
    else parsed
  if parsed2 ≠ [] then parsed2.take expected_count else [content]

/-- The localized error caption of `generate_caption`'s `except` branch. -/
def errorCaption : List Char := "خطا در تولید کپشن. لطفاً دوباره تلاش کنید.".toList

/-- `ai_service.py` `generate_caption`: `_call_ai` either returns the reply
(stripped before being handed over — `response...content.strip()`) or raises;
`none` models the raised case, answered by the single localized error string.
On success the reply is parsed with `expected_count = 3`. -/
def generate_caption (call_result : Option (List Char)) : List (List Char) :=
  match call_result with
  | some response => parse_numbered_content (trimChars response) 3
  | none => [errorCaption]

/-! ### Helper lemmas -/

theorem find?_decomp {α : Type _} {p : α → Bool} {l : List α} {a : α}
    (h : l.find? p = some a) :
    ∃ l1 l2, l = l1 ++ a :: l2 ∧ ∀ x ∈ l1, p x = false := by
  induction l with
  | nil => simp [List.find?] at h
  | cons b t ih =>
    by_cases hb : p b
    · refine ⟨[], t, ?_, by simp⟩
      rw [List.find?_cons_of_pos _ hb] at h
      simp at h
      simp [h]
    · rw [List.find?_cons_of_neg _ hb] at h
      obtain ⟨l1, l2, hl, hfalse⟩ := ih h
      refine ⟨b :: l1, l2, by simp [hl], ?_⟩
      intro x hx
      rcases List.mem_cons.mp hx with rfl | hx
      · simpa using hb
      · exact hfalse x hx

theorem bumpFirst_append_false {α : Type _} {p : α → Bool} {f : α → α} {l1 : List α}
    (h : ∀ x ∈ l1, p x = false) (l2 : List α) :
    bumpFirst p f (l1 ++ l2) = l1 ++ bumpFirst p f l2 := by
  induction l1 with
  | nil => simp
  | cons b t ih =>
    have hb : p b = false := h b (by simp)
    simp only [List.cons_append, bumpFirst, hb]
    simp [ih (fun x hx => h x (by simp [hx]))]

theorem bumpFirst_cons_true {α : Type _} {p : α → Bool} {f : α → α} {a : α}
    (h : p a = true) (l : List α) :
    bumpFirst p f (a :: l) = f a :: l := by
  simp [bumpFirst, h]

theorem find?_append_false {α : Type _} {p : α → Bool} {l1 : List α}
    (h : ∀ x ∈ l1, p x = false) (l2 : List α) :
    (l1 ++ l2).find? p = l2.find? p := by
  induction l1 with
  | nil => simp
  | cons b t ih =>
    have hb : p b = false := h b (by simp)
    simp [List.find?_cons, hb, ih (fun x hx => h x (by simp [hx]))]

/-! ### Claim theorems -/

/-- C1: for every subscription with expiry `E`, `extend_subscription` with `months`
at time `now` sets the new expiry to `max(E, now) + 30*months` days, sets the
status to active and records the payment amount and reference (a missing
subscription yields `False` and no change); in particular one month bought five
days before expiry yields `E + 30` days, and one month bought forty days after
expiry yields `now + 30` days. -/
theorem extend_subscription_spec :
    ∀ (s : Subscription) (now payment_amount : Int) (payment_reference : String)
      (months : Int),
      extend_subscription (some s) now payment_amount payment_reference months =
        (some { s with
            expires_at := max s.expires_at now + 30 * months * 86400
            status := SubscriptionStatus.active
            payment_amount := payment_amount
            payment_reference := some payment_reference
            updated_at := some now }, true) ∧
      extend_subscription none now payment_amount payment_reference months =
        (none, false) ∧
      ((extend_subscription (some s) (s.expires_at - 5 * 86400)
          payment_amount payment_reference 1).1.map (fun r => r.expires_at)) =
        some (s.expires_at + 30 * 86400) ∧
      ((extend_subscription (some s) (s.expires_at + 40 * 86400)
          payment_amount payment_reference 1).1.map (fun r => r.expires_at)) =
        some ((s.expires_at + 40 * 86400) + 30 * 86400) := by
  intro s now pa pr m
  refine ⟨rfl, rfl, ?_, ?_⟩
  · have h1 : max s.expires_at (s.expires_at - 5 * 86400) = s.expires_at :=
      max_eq_left (by omega)
    simp only [extend_subscription, h1, Option.map_some']
    norm_num
  · have h1 : max s.expires_at (s.expires_at + 40 * 86400) = s.expires_at + 40 * 86400 :=
      max_eq_right (by omega)
    simp only [extend_subscription, h1, Option.map_some']
    norm_num

/-- C3: `create_trial(userId, trialDays)` at time `now` yields status trial and
expiry `now + trialDays` days; `is_active` holds exactly when the expiry is in
the future and the status is trial or active; hence a fresh trial with positive
`trialDays` is active. -/
theorem create_trial_is_active_spec :
    ∀ (uid trial_days now : Int),
      (Subscription.create_trial uid trial_days now).status = SubscriptionStatus.trial ∧
      (Subscription.create_trial uid trial_days now).expires_at = now + trial_days * 86400 ∧
      (∀ (s : Subscription) (t : Int),
        s.is_active t = true ↔
          (t < s.expires_at ∧
            (s.status = SubscriptionStatus.trial ∨ s.status = SubscriptionStatus.active))) ∧
      (0 < trial_days →
        (Subscription.create_trial uid trial_days now).is_active now = true) := by
  intro uid trial_days now
  refine ⟨rfl, rfl, ?_, ?_⟩
  · intro s t
    simp [Subscription.is_active, gt_iff_lt, and_comm]
  · intro hpos
    simp only [Subscription.is_active, Subscription.create_trial, gt_iff_lt]
    have : now < now + trial_days * 86400 := by omega
    simp [this]

/-- C3 witness: a three-day trial created at time 0 is active at time 0. -/
theorem create_trial_is_active_witness :
    0 < (3 : Int) ∧ (Subscription.create_trial 1 3 0).is_active 0 = true :=
  ⟨by decide, (create_trial_is_active_spec 1 3 0).2.2.2 (by decide)⟩

/-- Modelled from the claim's words, for comparison only: a stored discount
code is said to be valid when it is "active, current_uses < max_uses, and no
expiry or expiry in the future" — "in the future" read as strictly later than
the current instant. -/
def claimDiscountValid (d : DiscountCode) (now : Int) : Bool :=
  d.is_active && decide (d.current_uses < d.max_uses) &&
    (match d.expires_at with
     | none => true
     | some e => decide (now < e))

/-- C2 counterexample: a code whose expiry equals the current instant has no
"expiry in the future", yet `apply_discount_code` redeems it (the code only
rejects `expires_at < now`), so the claimed "returns the code exactly when it
is valid (… expiry in the future)" fails at this input. -/
theorem apply_discount_boundary_cex :
    claimDiscountValid ⟨"X", 10, 0, some 0, true⟩ 0 = false ∧
    (apply_discount_code [⟨"X", 10, 0, some 0, true⟩] "X" 0).1 =
      some ⟨"X", 10, 1, some 0, true⟩ := by decide

/-- C2 (amended): `apply_discount_code` returns the code exactly when it is
valid (active, `current_uses < max_uses`, and no expiry or expiry not in the
past, i.e. `now ≤ expiry`), and in that case increments that row's
`current_uses` by exactly 1; an unknown or invalid code yields no code and
leaves the table unchanged; a code with `max_uses = 1` and `current_uses = 0`
redeems exactly once and a second sequential attempt fails. -/
theorem apply_discount_code_spec :
    ∀ (store : List DiscountCode) (code : String) (now : Int),
      (∀ d : DiscountCode, d.is_valid now = true ↔
        (d.is_active = true ∧ d.current_uses < d.max_uses ∧
          (d.expires_at = none ∨ ∃ e, d.expires_at = some e ∧ now ≤ e))) ∧
      (store.find? (fun x => x.code == code) = none →
        apply_discount_code store code now = (none, store)) ∧
      (∀ d, store.find? (fun x => x.code == code) = some d →
        (d.is_valid now = false → apply_discount_code store code now = (none, store)) ∧
        (d.is_valid now = true →
          (apply_discount_code store code now).1 =
            some { d with current_uses := d.current_uses + 1 } ∧
          ∃ l1 l2, store = l1 ++ d :: l2 ∧
            (apply_discount_code store code now).2 =
              l1 ++ { d with current_uses := d.current_uses + 1 } :: l2)) ∧
      (∀ d, store.find? (fun x => x.code == code) = some d →
        d.max_uses = 1 → d.current_uses = 0 → d.is_valid now = true →
          (apply_discount_code store code now).1 = some { d with current_uses := 1 } ∧
          (apply_discount_code (apply_discount_code store code now).2 code now).1 =
            none) := by
  intro store code now
  have hchar : ∀ d : DiscountCode, d.is_valid now = true ↔
      (d.is_active = true ∧ d.current_uses < d.max_uses ∧
        (d.expires_at = none ∨ ∃ e, d.expires_at = some e ∧ now ≤ e)) := by
    intro d
    cases hact : d.is_active <;> cases hexp : d.expires_at <;>
      simp [DiscountCode.is_valid, hact, hexp]
  have hcore : ∀ d, store.find? (fun x => x.code == code) = some d →
      d.is_valid now = true →
        (apply_discount_code store code now).1 =
          some { d with current_uses := d.current_uses + 1 } ∧
        ∃ l1 l2, store = l1 ++ d :: l2 ∧ (∀ x ∈ l1, (x.code == code) = false) ∧
          (apply_discount_code store code now).2 =
            l1 ++ { d with current_uses := d.current_uses + 1 } :: l2 := by
    intro d hfind hvalid
    have hpd := List.find?_some hfind
    obtain ⟨l1, l2, hstore, hl1⟩ := find?_decomp hfind
    refine ⟨by simp [apply_discount_code, hfind, hvalid], l1, l2, hstore, hl1, ?_⟩
    simp only [apply_discount_code, hfind, hvalid, if_pos]
    rw [hstore, bumpFirst_append_false hl1,
      bumpFirst_cons_true (p := fun x : DiscountCode => x.code == code) (a := d) hpd]
  refine ⟨hchar, ?_, ?_, ?_⟩
  · intro hnone
    simp [apply_discount_code, hnone]
  · intro d hfind
    refine ⟨?_, ?_⟩
    · intro hinvalid
      simp [apply_discount_code, hfind, hinvalid]
    · intro hvalid
      obtain ⟨h1, l1, l2, hstore, _, h2⟩ := hcore d hfind hvalid
      exact ⟨h1, l1, l2, hstore, h2⟩
  · intro d hfind hmax huses hvalid
    obtain ⟨h1, l1, l2, hstore, hl1, h2⟩ := hcore d hfind hvalid
    have hpd := List.find?_some hfind
    rw [huses] at h1 h2
    refine ⟨h1, ?_⟩
    have hfind2 : (apply_discount_code store code now).2.find?
        (fun x => x.code == code) = some { d with current_uses := 0 + 1 } := by
      rw [h2, find?_append_false hl1, List.find?_cons_of_pos _ (by simpa using hpd)]
    have hinvalid2 : DiscountCode.is_valid { d with current_uses := 1 } now = false := by
      cases hact : d.is_active <;>
        simp [DiscountCode.is_valid, hact, hmax]
    set st2 := (apply_discount_code store code now).2 with hst
    simp [apply_discount_code, hfind2, hinvalid2]

/-- C2 witness: a concrete single-use code is redeemed once and refused the
second time. -/
theorem apply_discount_code_spec_witness :
    (apply_discount_code [⟨"SAVE", 1, 0, none, true⟩] "SAVE" 5).1 =
      some ⟨"SAVE", 1, 1, none, true⟩ ∧
    (apply_discount_code
      (apply_discount_code [⟨"SAVE", 1, 0, none, true⟩] "SAVE" 5).2 "SAVE" 5).1 =
      none := by
  have h := (apply_discount_code_spec [⟨"SAVE", 1, 0, none, true⟩] "SAVE" 5).2.2.2
    ⟨"SAVE", 1, 0, none, true⟩ (by decide) rfl rfl (by decide)
  exact ⟨h.1, h.2⟩

/-- One `apply_discount_code` call, seen from a single row: untouched, or —
only when uses remained — incremented by one. -/
def discountStep (old new : DiscountCode) : Prop :=
  new = old ∨ (old.current_uses < old.max_uses ∧
    new = { old with current_uses := old.current_uses + 1 })

/-- Cumulative effect of any number of calls on a single row. -/
def discountEvol (old new : DiscountCode) : Prop :=
  old.code = new.code ∧ old.max_uses = new.max_uses ∧
  old.current_uses ≤ new.current_uses ∧
  (old.current_uses ≤ old.max_uses → new.current_uses ≤ new.max_uses)

theorem discountEvol_refl (d : DiscountCode) : discountEvol d d :=
  ⟨rfl, rfl, le_refl _, fun h => h⟩

theorem discountStep_evol {old new : DiscountCode} (h : discountStep old new) :
    discountEvol old new := by
  rcases h with rfl | ⟨hlt, rfl⟩
  · exact discountEvol_refl _
  · refine ⟨rfl, rfl, ?_, ?_⟩
    · show old.current_uses ≤ old.current_uses + 1
      omega
    · intro _
      show old.current_uses + 1 ≤ old.max_uses
      omega

theorem discountEvol_trans {a b c : DiscountCode}
    (h1 : discountEvol a b) (h2 : discountEvol b c) : discountEvol a c := by
  obtain ⟨hc1, hm1, hu1, hb1⟩ := h1
  obtain ⟨hc2, hm2, hu2, hb2⟩ := h2
  exact ⟨hc1.trans hc2, hm1.trans hm2, hu1.trans hu2, fun h => hb2 (hb1 h)⟩

theorem forall₂_evol_trans :
    ∀ {l1 l2 l3 : List DiscountCode}, List.Forall₂ discountEvol l1 l2 →
      List.Forall₂ discountEvol l2 l3 → List.Forall₂ discountEvol l1 l3 := by
  intro l1 l2 l3 h1
  induction h1 generalizing l3 with
  | nil =>
    intro h2
    cases h2
    exact List.Forall₂.nil
  | cons hab h1' ih =>
    intro h2
    cases h2 with
    | cons hbc h2' => exact List.Forall₂.cons (discountEvol_trans hab hbc) (ih h2')

theorem is_valid_lt {d : DiscountCode} {now : Int} (h : d.is_valid now = true) :
    d.current_uses < d.max_uses := by
  by_contra hge
  cases hact : d.is_active <;>
    simp [DiscountCode.is_valid, hact, show d.max_uses ≤ d.current_uses by omega] at h

theorem bumpFirst_forall₂_step {p : DiscountCode → Bool} {d : DiscountCode} :
    ∀ {l : List DiscountCode}, l.find? p = some d → d.current_uses < d.max_uses →
      List.Forall₂ discountStep l
        (bumpFirst p (fun x => { x with current_uses := x.current_uses + 1 }) l) := by
  intro l
  induction l with
  | nil => intro h; simp at h
  | cons a t ih =>
    intro hfind hlt
    by_cases ha : p a
    · rw [List.find?_cons_of_pos _ ha] at hfind
      obtain rfl : a = d := by simpa using hfind
      rw [bumpFirst_cons_true (p := p) ha]
      exact List.Forall₂.cons (Or.inr ⟨hlt, rfl⟩)
        ((List.forall₂_same).mpr (fun x _ => Or.inl rfl))
    · rw [List.find?_cons_of_neg _ ha] at hfind
      have hstep := ih hfind hlt
      rw [show bumpFirst p (fun x => { x with current_uses := x.current_uses + 1 }) (a :: t) =
        a :: bumpFirst p (fun x => { x with current_uses := x.current_uses + 1 }) t from by
          simp [bumpFirst, ha]]
      exact List.Forall₂.cons (Or.inl rfl) hstep

theorem apply_forall₂_step (st : List DiscountCode) (code : String) (now : Int) :
    List.Forall₂ discountStep st (apply_discount_code st code now).2 := by
  cases hf : st.find? (fun d => d.code == code) with
  | none =>
    simp only [apply_discount_code, hf]
    exact (List.forall₂_same).mpr (fun x _ => Or.inl rfl)
  | some d =>
    cases hv : d.is_valid now with
    | false =>
      simp only [apply_discount_code, hf, hv, Bool.false_eq_true, if_neg]
      exact (List.forall₂_same).mpr (fun x _ => Or.inl rfl)
    | true =>
      simp only [apply_discount_code, hf, hv, if_pos]
      exact bumpFirst_forall₂_step hf (is_valid_lt hv)

theorem runApplies_forall₂_evol :
    ∀ (reqs : List (String × Int)) (st : List DiscountCode),
      List.Forall₂ discountEvol st (runApplies st reqs) := by
  intro reqs
  induction reqs with
  | nil =>
    intro st
    exact (List.forall₂_same).mpr (fun x _ => discountEvol_refl x)
  | cons r rs ih =>
    intro st
    have hstep : List.Forall₂ discountEvol st (apply_discount_code st r.1 r.2).2 :=
      List.Forall₂.imp (fun _ _ h => discountStep_evol h) (apply_forall₂_step st r.1 r.2)
    have hrest := ih (apply_discount_code st r.1 r.2).2
    have : runApplies st (r :: rs) = runApplies (apply_discount_code st r.1 r.2).2 rs := rfl
    rw [this]
    exact forall₂_evol_trans hstep hrest

/-- C8: over any sequence of sequential `apply_discount_code` calls, each row's
`current_uses` never decreases and — when it started within bounds — never
exceeds `max_uses`; each single call leaves a row unchanged or increments it by
exactly 1, and an increment happens only when `current_uses < max_uses` held
before the call. -/
theorem discount_uses_monotone :
    ∀ (store : List DiscountCode) (reqs : List (String × Int)),
      List.Forall₂ discountEvol store (runApplies store reqs) ∧
      ∀ (code : String) (now : Int),
        List.Forall₂ discountStep store (apply_discount_code store code now).2 :=
  fun store reqs =>
    ⟨runApplies_forall₂_evol reqs store, fun code now => apply_forall₂_step store code now⟩

/-- C8 witness: the cumulative relation at a concrete table and request
sequence (three redemptions of a two-use code). -/
theorem discount_uses_monotone_witness :
    List.Forall₂ discountEvol [⟨"A", 2, 0, none, true⟩]
      (runApplies [⟨"A", 2, 0, none, true⟩] [("A", 0), ("A", 0), ("A", 0)]) :=
  (discount_uses_monotone [⟨"A", 2, 0, none, true⟩] [("A", 0), ("A", 0), ("A", 0)]).1

theorem parse_numbered_content_len (content : List Char) :
    1 ≤ (parse_numbered_content content 3).length ∧
    (parse_numbered_content content 3).length ≤ 3 := by
  have key : ∀ (parsed2 : List (List Char)),
      1 ≤ (if parsed2 ≠ [] then parsed2.take 3 else [content]).length ∧
      (if parsed2 ≠ [] then parsed2.take 3 else [content]).length ≤ 3 := by
    intro parsed2
    by_cases h : parsed2 = []
    · simp [h]
    · have hp : 0 < parsed2.length := List.length_pos.mpr h
      simp only [h, ne_eq, not_false_eq_true, if_pos, List.length_take]
      omega
  exact key _

/-- C7: the caption generation operation is total and always yields between 1
and the requested 3 variants: the parsed reply is sliced to at most 3 and is
never empty, and a failing external call degrades to the single localized
error string. -/
theorem generate_caption_spec :
    ∀ (call_result : Option (List Char)),
      1 ≤ (generate_caption call_result).length ∧
      (generate_caption call_result).length ≤ 3 ∧
      generate_caption none = [errorCaption] := by
  intro r
  cases r with
  | none => exact ⟨by simp [generate_caption], by simp [generate_caption], rfl⟩
  | some resp =>
    obtain ⟨h1, h2⟩ := parse_numbered_content_len (trimChars resp)
    exact ⟨h1, h2, rfl⟩

/-- C5 counterexample: a back token received in the first onboarding state
(`waiting_for_ready`) does not leave the controller at `ready` — no onboarding
handler catches it there, so the global back handler clears the state to the
main menu. -/
theorem back_from_ready_cex :
    backStep BotState.ready = BotState.mainMenu ∧
    backStep BotState.ready ≠ BotState.ready := by decide

/-- C5 (amended): each back token in the states name through additional_info
moves to the immediately preceding state of the static predecessor map; a back
token in ready exits the onboarding flow to the cleared main-menu state (not
ready), where further back tokens stay at the main menu; hence iterated back
never re-enters the funnel and reaches the main menu after at most 12 steps. -/
theorem back_navigation_spec :
    backStep BotState.name = BotState.ready ∧
    backStep BotState.phone = BotState.name ∧
    backStep BotState.email = BotState.phone ∧
    backStep BotState.galleryName = BotState.email ∧
    backStep BotState.instagram = BotState.galleryName ∧
    backStep BotState.telegramChannel = BotState.instagram ∧
    backStep BotState.customers = BotState.telegramChannel ∧
    backStep BotState.constraints = BotState.customers ∧
    backStep BotState.help = BotState.constraints ∧
    backStep BotState.physicalStore = BotState.help ∧
    backStep BotState.additionalInfo = BotState.physicalStore ∧
    backStep BotState.ready = BotState.mainMenu ∧
    backStep BotState.mainMenu = BotState.mainMenu ∧
    (∀ s : BotState, backStep^[12] s = BotState.mainMenu) := by
  refine ⟨rfl, rfl, rfl, rfl, rfl, rfl, rfl, rfl, rfl, rfl, rfl, rfl, rfl, ?_⟩
  intro s
  cases s <;> decide

/-- C4 counterexample: "+9123456789" matches the claimed pattern
`^(\+?0?9)\d{9}$` and is neither the skip nor the back token, yet the handler
re-prompts instead of accepting it — the code's pattern is `^(\+98|0)?9\d{9}$`. -/
theorem phone_pattern_cex :
    specPhoneMatch "+9123456789".toList = true ∧
    "+9123456789".toList ≠ skipTok ∧
    "+9123456789".toList ≠ backTok ∧
    handle_phone_input "+9123456789".toList = PhoneOutcome.reprompt := by decide

/-- C4 (amended): for every text in the phone-collection state that is not the
skip or back token, if it matches the code's pattern `^(\+98|0)?9\d{9}$`
(under Python `re.match` semantics, which also accept one trailing newline)
the value is persisted verbatim as the phone and the state advances to email;
otherwise nothing is stored and the same prompt is re-shown. -/
theorem handle_phone_input_spec :
    ∀ (text : List Char), text ≠ skipTok → text ≠ backTok →
      ((phoneMatch text = true →
          handle_phone_input text = PhoneOutcome.acceptToEmail text) ∧
       (phoneMatch text = false → handle_phone_input text = PhoneOutcome.reprompt)) := by
  intro t hskip hback
  constructor
  · intro hm
    simp [handle_phone_input, hskip, hback, hm]
  · intro hm
    simp [handle_phone_input, hskip, hback, hm]

/-- C4 witness: the concrete valid number "09123456789" is accepted and stored
verbatim, and so is "09۱۲۳۴۵۶۷۸۹" — Python `\d` matches Persian decimal
digits too. -/
theorem handle_phone_input_spec_witness :
    phoneMatch "09123456789".toList = true ∧
    handle_phone_input "09123456789".toList =
      PhoneOutcome.acceptToEmail "09123456789".toList ∧
    phoneMatch "09۱۲۳۴۵۶۷۸۹".toList = true ∧
    handle_phone_input "09۱۲۳۴۵۶۷۸۹".toList =
      PhoneOutcome.acceptToEmail "09۱۲۳۴۵۶۷۸۹".toList :=
  ⟨by decide,
    (handle_phone_input_spec "09123456789".toList (by decide) (by decide)).1 (by decide),
    by decide,
    (handle_phone_input_spec "09۱۲۳۴۵۶۷۸۹".toList (by decide) (by decide)).1 (by decide)⟩

theorem bumpFirst_all_false {α : Type _} {p : α → Bool} {f : α → α} {l : List α}
    (h : ∀ x ∈ l, p x = false) : bumpFirst p f l = l := by
  induction l with
  | nil => rfl
  | cons a t ih =>
    have ha : p a = false := h a (by simp)
    simp [bumpFirst, ha, ih (fun x hx => h x (by simp [hx]))]

/-- C10: `get_or_create_user` for an existing user — with any keyword
arguments, a `referred_by_code` included — returns that user with only
`last_activity` refreshed, rewrites only that row, creates no profile or
subscription, and increments no referral counter. -/
theorem get_or_create_idempotent :
    ∀ (db : DB) (now : Int) (fresh : String) (uid trial_days telegram_id : Int)
      (username first_name last_name referred_by_code : Option String) (u0 : User),
      db.users.find? (fun x => x.telegram_id == telegram_id) = some u0 →
      (get_or_create_user db now fresh uid trial_days telegram_id
          username first_name last_name referred_by_code).1 =
        { u0 with last_activity := now } ∧
      (get_or_create_user db now fresh uid trial_days telegram_id
          username first_name last_name referred_by_code).2.profiles = db.profiles ∧
      (get_or_create_user db now fresh uid trial_days telegram_id
          username first_name last_name referred_by_code).2.subscriptions =
        db.subscriptions ∧
      ∃ l1 l2, db.users = l1 ++ u0 :: l2 ∧
        (get_or_create_user db now fresh uid trial_days telegram_id
            username first_name last_name referred_by_code).2.users =
          l1 ++ { u0 with last_activity := now } :: l2 := by
  intro db now fresh uid trial_days telegram_id username first_name last_name
    referred_by_code u0 h
  obtain ⟨l1, l2, hsplit, hl1⟩ := find?_decomp h
  have hp := List.find?_some h
  refine ⟨by simp [get_or_create_user, h], by simp [get_or_create_user, h],
    by simp [get_or_create_user, h], l1, l2, hsplit, ?_⟩
  simp only [get_or_create_user, h]
  rw [hsplit, bumpFirst_append_false hl1,
    bumpFirst_cons_true (p := fun x : User => x.telegram_id == telegram_id) (a := u0) hp]


/-- A concrete existing user for the C10 witness. -/
def demoUser : User :=
  ⟨1, 10, none, none, none, none, false, some "ABCDEFGH", none, some 0, 0⟩

/-- A concrete one-user database for the C10 witness. -/
def demoDB : DB :=
  ⟨[demoUser], [⟨1⟩], [Subscription.create_trial 1 3 0]⟩

/-- C10 witness: a second call for the already-present user at a later clock
returns that user with only `last_activity` refreshed. -/
theorem get_or_create_idempotent_witness :
    (get_or_create_user demoDB 7 "ZZZZZZZZ" 2 3 10 none none none
        (some "ABCDEFGH")).1 = { demoUser with last_activity := 7 } :=
  (get_or_create_idempotent demoDB 7 "ZZZZZZZZ" 2 3 10 none none none
    (some "ABCDEFGH") demoUser (by decide)).1

/-- C9: creating user B with a `referredByCode` equal to existing user A's
referral code increments A's `referral_count` by exactly 1 and leaves B's own
generated referral code untouched; a `referredByCode` matching no user's code
creates B without error and increments no counter (every pre-existing row is
returned unchanged). -/
theorem referral_increment_spec :
    ∀ (db : DB) (now : Int) (fresh codeA : String) (uid trial_days telegram_id : Int)
      (username first_name last_name : Option String) (r : User × DB),
      r = get_or_create_user db now fresh uid trial_days telegram_id
            username first_name last_name (some codeA) →
      db.users.find? (fun x => x.telegram_id == telegram_id) = none →
      (∀ x ∈ db.users, x.id ≠ uid) →
      codeA ≠ "" →
      ((∀ A, db.users.find? (fun x => x.referral_code == some codeA) = some A →
          r.1.id = uid ∧ r.1.referral_code = some fresh ∧
          r.1.referral_count = none ∧
          r.2.profiles = db.profiles ++ [{ user_id := uid }] ∧
          r.2.subscriptions =
            db.subscriptions ++ [Subscription.create_trial uid trial_days now] ∧
          ∃ l1 l2, db.users = l1 ++ A :: l2 ∧
            r.2.users =
              l1 ++ { A with referral_count := some (A.referral_count.getD 0 + 1) } ::
                l2 ++ [r.1]) ∧
       (db.users.find? (fun x => x.referral_code == some codeA) = none →
        fresh ≠ codeA →
          r.1.id = uid ∧ r.1.referral_code = some fresh ∧
          r.2.users = db.users ++ [r.1] ∧
          r.2.profiles = db.profiles ++ [{ user_id := uid }] ∧
          r.2.subscriptions =
            db.subscriptions ++ [Subscription.create_trial uid trial_days now])) := by
  intro db now fresh codeA uid trial_days telegram_id username first_name last_name
    r hr htid hid hcode
  subst hr
  have hgen : get_or_create_user db now fresh uid trial_days telegram_id
      username first_name last_name (some codeA) =
      (((bumpFirst (fun x => x.referral_code == some codeA)
          (fun x => { x with referral_count := some (x.referral_count.getD 0 + 1) })
          (db.users ++ [⟨uid, telegram_id, username, first_name, last_name, none,
            false, some fresh, some codeA, none, now⟩])).find?
          (fun x => x.id == uid)).getD
        ⟨uid, telegram_id, username, first_name, last_name, none, false,
          some fresh, some codeA, none, now⟩,
       ⟨bumpFirst (fun x => x.referral_code == some codeA)
          (fun x => { x with referral_count := some (x.referral_count.getD 0 + 1) })
          (db.users ++ [⟨uid, telegram_id, username, first_name, last_name, none,
            false, some fresh, some codeA, none, now⟩]),
        db.profiles ++ [{ user_id := uid }],
        db.subscriptions ++ [Subscription.create_trial uid trial_days now]⟩) := by
    simp only [get_or_create_user, htid, User.generate_referral_code]
    rw [if_neg hcode]
  constructor
  · intro A hA
    obtain ⟨l1, l2, hsplit, hl1⟩ := find?_decomp hA
    have hpA := List.find?_some hA
    have hflat : db.users ++
        [(⟨uid, telegram_id, username, first_name, last_name, none, false,
          some fresh, some codeA, none, now⟩ : User)] =
        l1 ++ A :: (l2 ++ [⟨uid, telegram_id, username, first_name, last_name, none,
          false, some fresh, some codeA, none, now⟩]) := by
      simp [hsplit]
    have hbump : bumpFirst (fun x => x.referral_code == some codeA)
        (fun x => { x with referral_count := some (x.referral_count.getD 0 + 1) })
        (db.users ++ [⟨uid, telegram_id, username, first_name, last_name, none,
          false, some fresh, some codeA, none, now⟩]) =
        l1 ++ { A with referral_count := some (A.referral_count.getD 0 + 1) } ::
          (l2 ++ [⟨uid, telegram_id, username, first_name, last_name, none,
            false, some fresh, some codeA, none, now⟩]) := by
      rw [hflat, bumpFirst_append_false hl1,
        bumpFirst_cons_true (p := fun x : User => x.referral_code == some codeA)
          (a := A) hpA]
    have hid1 : ∀ x ∈ l1, (fun x : User => x.id == uid) x = false := by
      intro x hx
      have : x ∈ db.users := by rw [hsplit]; exact List.mem_append_left _ hx
      simpa using hid x this
    have hidA : ((fun x : User => x.id == uid)
        { A with referral_count := some (A.referral_count.getD 0 + 1) }) = false := by
      have : A ∈ db.users := by rw [hsplit]; simp
      simpa using hid A this
    have hid2 : ∀ x ∈ l2, (fun x : User => x.id == uid) x = false := by
      intro x hx
      have : x ∈ db.users := by rw [hsplit]; simp [hx]
      simpa using hid x this
    have hfind : (l1 ++ { A with referral_count := some (A.referral_count.getD 0 + 1) } ::
        (l2 ++ [(⟨uid, telegram_id, username, first_name, last_name, none, false,
          some fresh, some codeA, none, now⟩ : User)])).find?
        (fun x => x.id == uid) =
        some ⟨uid, telegram_id, username, first_name, last_name, none, false,
          some fresh, some codeA, none, now⟩ := by
      rw [find?_append_false hid1, List.find?_cons_of_neg _ (by simpa using hidA),
        find?_append_false hid2, List.find?_cons_of_pos _ (by simp)]
    rw [hgen]
    refine ⟨?_, ?_, ?_, rfl, rfl, l1, l2, hsplit, ?_⟩
    · simp [hbump, hfind]
    · simp [hbump, hfind]
    · simp [hbump, hfind]
    · simp only [hbump, hfind]
      simp
  · intro hnone hfr
    have hall : ∀ x ∈ db.users ++
        [(⟨uid, telegram_id, username, first_name, last_name, none, false,
          some fresh, some codeA, none, now⟩ : User)],
        (fun x : User => x.referral_code == some codeA) x = false := by
      intro x hx
      rcases List.mem_append.mp hx with hx | hx
      · have := List.find?_eq_none.mp hnone x hx
        simpa using this
      · simp at hx
        subst hx
        show ((some fresh : Option String) == some codeA) = false
        rw [beq_eq_false_iff_ne]
        simpa using hfr
    have hbump := bumpFirst_all_false
      (f := fun x : User => { x with referral_count := some (x.referral_count.getD 0 + 1) })
      hall
    have hid1 : ∀ x ∈ db.users, (fun x : User => x.id == uid) x = false := by
      intro x hx
      simpa using hid x hx
    have hfind : (db.users ++
        [(⟨uid, telegram_id, username, first_name, last_name, none, false,
          some fresh, some codeA, none, now⟩ : User)]).find?
        (fun x => x.id == uid) =
        some ⟨uid, telegram_id, username, first_name, last_name, none, false,
          some fresh, some codeA, none, now⟩ := by
      rw [find?_append_false hid1, List.find?_cons_of_pos _ (by simp)]
    rw [hgen]
    refine ⟨?_, ?_, ?_, rfl, rfl⟩
    · simp [hbump, hfind]
    · simp [hbump, hfind]
    · simp [hbump, hfind]

/-- Existing referrer A for the C9 witness. -/
def demoRefA : User :=
  ⟨1, 10, none, none, none, none, false, some "ABC", none, some 0, 0⟩

/-- One-user database for the C9 witness. -/
def demoRefDB : DB :=
  ⟨[demoRefA], [⟨1⟩], [Subscription.create_trial 1 3 0]⟩

/-- C9 witness: creating a new user with A's code gives the new user its own
fresh code, bumps A's counter to 1 and appends exactly one profile. -/
theorem referral_increment_spec_witness :
    (get_or_create_user demoRefDB 5 "ZZZZZZZZ" 2 3 20 none none none
        (some "ABC")).1.referral_code = some "ZZZZZZZZ" ∧
    (get_or_create_user demoRefDB 5 "ZZZZZZZZ" 2 3 20 none none none
        (some "ABC")).2.users =
      [{ demoRefA with referral_count := some 1 },
       (get_or_create_user demoRefDB 5 "ZZZZZZZZ" 2 3 20 none none none
         (some "ABC")).1] ∧
    (get_or_create_user demoRefDB 5 "ZZZZZZZZ" 2 3 20 none none none
        (some "ABC")).2.profiles = demoRefDB.profiles ++ [{ user_id := 2 }] := by
  have h := (referral_increment_spec demoRefDB 5 "ZZZZZZZZ" "ABC" 2 3 20
    none none none _ rfl (by decide) (by decide) (by decide)).1 demoRefA (by decide)
  obtain ⟨-, hcode, -, hprof, -, l1, l2, hsplit, husers⟩ := h
  have hl1 : l1 = [] ∧ l2 = [] := by
    have : [demoRefA] = l1 ++ demoRefA :: l2 := hsplit
    cases l1 with
    | nil => simpa using this.symm
    | cons a t => simp at this
  obtain ⟨h1, h2⟩ := hl1
  subst h1
  subst h2
  refine ⟨hcode, ?_, hprof⟩
  simpa using husers

theorem splitBlank_ne_nil : ∀ (l : List Char), splitBlank l ≠ [] := by
  intro l
  induction l with
  | nil => simp [splitBlank]
  | cons c rest ih =>
    cases rest with
    | nil => simp [splitBlank]
    | cons d rest2 =>
      simp only [splitBlank]
      split
      · exact List.cons_ne_nil _ _
      · cases h : splitBlank (d :: rest2) with
        | nil => exact absurd h ih
        | cons a t => simp

theorem splitBlank_no_double :
    ∀ {l : List Char}, hasDouble l = false → splitBlank l = [l] := by
  intro l
  induction l with
  | nil => intro _; rfl
  | cons c rest ih =>
    intro h
    cases rest with
    | nil => rfl
    | cons d rest2 =>
      simp only [hasDouble, Bool.or_eq_false_iff, Bool.and_eq_false_iff] at h
      obtain ⟨hcd, htail⟩ := h
      have hne : ¬(c = '\n' ∧ d = '\n') := by
        rintro ⟨rfl, rfl⟩
        simp at hcd
      simp only [splitBlank, if_neg hne, ih htail]

theorem splitBlank_cons₂ (c d : Char) (rest : List Char) :
    splitBlank (c :: d :: rest) =
      if c = '\n' ∧ d = '\n' then [] :: splitBlank rest
      else
        match splitBlank (d :: rest) with
        | [] => [[c]]
        | h :: t => (c :: h) :: t := rfl

theorem splitBlank_sep :
    ∀ {p : List Char} (q : List Char), hasDouble p = false →
      p.getLast? ≠ some '\n' →
      splitBlank (p ++ '\n' :: '\n' :: q) = p :: splitBlank q := by
  intro p
  induction p with
  | nil =>
    intro q _ _
    simp [splitBlank_cons₂]
  | cons c p' ih =>
    intro q hd hl
    cases p' with
    | nil =>
      have hc : c ≠ '\n' := by
        simpa using hl
      show splitBlank (c :: '\n' :: '\n' :: q) = [c] :: splitBlank q
      rw [splitBlank_cons₂, if_neg (by rintro ⟨rfl, -⟩; exact hc rfl),
        show splitBlank ('\n' :: '\n' :: q) = [] :: splitBlank q from by
          rw [splitBlank_cons₂]; simp]
    | cons d p'' =>
      simp only [hasDouble, Bool.or_eq_false_iff, Bool.and_eq_false_iff] at hd
      obtain ⟨hcd, htail⟩ := hd
      have hne : ¬(c = '\n' ∧ d = '\n') := by
        rintro ⟨rfl, rfl⟩
        simp at hcd
      have hl' : (d :: p'').getLast? ≠ some '\n' := by
        rwa [List.getLast?_cons_cons] at hl
      have hrec := ih q htail hl'
      simp only [List.cons_append] at hrec ⊢
      rw [splitBlank_cons₂, if_neg hne, hrec]

theorem parseAccum_no_label :
    ∀ {lines : List (List Char)} (parsed : List (List Char)),
      (∀ l ∈ lines, isLabel (trimChars l) = false) →
      parseAccum lines parsed [] = (parsed, []) := by
  intro lines
  induction lines with
  | nil => intro parsed _; rfl
  | cons l ls ih =>
    intro parsed h
    have hl : isLabel (trimChars l) = false := h l (by simp)
    simp only [parseAccum, hl, Bool.false_eq_true, if_neg, ne_eq,
      not_true_eq_false, if_pos]
    simp only [reduceIte]
    exact ih parsed (fun x hx => h x (by simp [hx]))

/-- C6 counterexample: a whitespace-only reply has no labels and no blank-line
structure, yet the parser returns it verbatim — its sole element is the raw,
untrimmed reply, not the trimmed one. -/
theorem parse_fallback_whitespace_cex :
    (∀ l ∈ splitNl (trimChars [' ']), isLabel (trimChars l) = false) ∧
    hasDouble [' '] = false ∧
    parse_numbered_content [' '] 3 = [[' ']] ∧
    parse_numbered_content [' '] 3 ≠ [trimChars [' ']] := by decide

/-- C6 (amended): a reply of three blank-line-separated paragraphs, none
containing a blank line or ending in a newline, each non-blank, and none of
whose lines opens with a numbered label, is parsed to exactly those three
paragraphs trimmed; a reply without labels and without blank-line structure
whose trimmed form is non-empty is parsed to its trimmed form as sole element
(a whitespace-only reply is instead returned untrimmed as sole element). -/
theorem parse_fallback_spec :
    (∀ (p1 p2 p3 : List Char),
      hasDouble p1 = false → p1.getLast? ≠ some '\n' →
      hasDouble p2 = false → p2.getLast? ≠ some '\n' →
      hasDouble p3 = false →
      trimChars p1 ≠ [] → trimChars p2 ≠ [] → trimChars p3 ≠ [] →
      (∀ l ∈ splitNl (trimChars (p1 ++ '\n' :: '\n' :: (p2 ++ '\n' :: '\n' :: p3))),
        isLabel (trimChars l) = false) →
      parse_numbered_content (p1 ++ '\n' :: '\n' :: (p2 ++ '\n' :: '\n' :: p3)) 3 =
        [trimChars p1, trimChars p2, trimChars p3]) ∧
    (∀ (c : List Char),
      (∀ l ∈ splitNl (trimChars c), isLabel (trimChars l) = false) →
      hasDouble c = false → trimChars c ≠ [] →
      parse_numbered_content c 3 = [trimChars c]) := by
  constructor
  · intro p1 p2 p3 h1 hL1 h2 hL2 h3 ht1 ht2 ht3 hnl
    have hacc := parseAccum_no_label [] hnl
    have hsb : splitBlank (p1 ++ '\n' :: '\n' :: (p2 ++ '\n' :: '\n' :: p3)) =
        [p1, p2, p3] := by
      rw [splitBlank_sep _ h1 hL1, splitBlank_sep _ h2 hL2, splitBlank_no_double h3]
    simp only [parse_numbered_content, hacc, hsb]
    simp [ht1, ht2, ht3]
  · intro c hnl hd htc
    have hacc := parseAccum_no_label [] hnl
    have hsb := splitBlank_no_double hd
    simp only [parse_numbered_content, hacc, hsb]
    simp [htc]

/-- C6 witness: the reply "A\n\nB\n\nC" parses to its three paragraphs. -/
theorem parse_fallback_spec_witness :
    parse_numbered_content (['A'] ++ '\n' :: '\n' :: (['B'] ++ '\n' :: '\n' :: ['C'])) 3 =
      [trimChars ['A'], trimChars ['B'], trimChars ['C']] :=
  parse_fallback_spec.1 ['A'] ['B'] ['C'] (by decide) (by decide) (by decide)
    (by decide) (by decide) (by decide) (by decide) (by decide) (by decide)
